import Mathlib

/-!
# Verification of the claude-code-action trigger / authorization / dispatch logic

Shallow embedding of the TypeScript sources of `code-hud/claude-code-action`:

* `src/github/validation/actor.ts` — `detectAIProvider`, `checkContainsTrigger`,
  `escapeRegExp`, `checkAllowedActor`, `checkWritePermissions`;
* the CLI dispatcher (`getCliToolConfig`, `executeCliTool`).

Strings are modelled as `List Char`.  The JavaScript regular expressions used by
the source all have the fixed shape `(^|\s)TOKEN([\s.,!?;:]|$)` with `TOKEN` a
literal character sequence; their `.test` semantics is embedded directly as a
scan (`mentionMatch`) and characterised against a declarative occurrence
predicate (`StandaloneToken`).
-/

namespace ClaudeCodeAction

/-- The set of characters matched by the JavaScript regex class `\s`
(ECMAScript WhiteSpace and LineTerminator code points), by code point. -/
def jsWhitespace (c : Char) : Bool :=
  c.toNat ∈ [0x9, 0xA, 0xB, 0xC, 0xD, 0x20, 0xA0, 0x1680,
    0x2000, 0x2001, 0x2002, 0x2003, 0x2004, 0x2005, 0x2006, 0x2007,
    0x2008, 0x2009, 0x200A, 0x2028, 0x2029, 0x202F, 0x205F, 0x3000, 0xFEFF]

/-- A character matched by the trailing class `[\s.,!?;:]` of the trigger
regexes in `actor.ts`: whitespace or one of `.` `,` `!` `?` `;` `:`. -/
def boundaryAfterChar (c : Char) : Bool :=
  jsWhitespace c || c ∈ ['.', ',', '!', '?', ';', ':']

/-- Strip `tok` from the front of `s`, returning the remainder when `tok`
is an initial segment of `s`. -/
def stripPfx : List Char → List Char → Option (List Char)
  | [], s => some s
  | _ :: _, [] => none
  | t :: ts, c :: cs => if t = c then stripPfx ts cs else none

/-- Does the token match at the very start of `s`, with a legal right
boundary (`[\s.,!?;:]` or end of string) immediately after it? -/
def tokenHere (tok s : List Char) : Bool :=
  match stripPfx tok s with
  | none => false
  | some [] => true
  | some (c :: _) => boundaryAfterChar c

/-- Scan the tail of the text for an occurrence of the token preceded by a
whitespace character (the `\s` alternative of the leading group `(^|\s)`). -/
def scanRest (tok : List Char) : List Char → Bool
  | [] => false
  | c :: rest => (jsWhitespace c && tokenHere tok rest) || scanRest tok rest

/-- `.test` semantics of the regex `(^|\s)tok([\s.,!?;:]|$)`: the token occurs
either at the start of the text or right after a whitespace character, and is
followed by a boundary character or the end of the text. -/
def mentionMatch (tok text : List Char) : Bool :=
  tokenHere tok text || scanRest tok text

/-- Declarative occurrence predicate taken from the specification's wording:
`tok` occurs in `text` as a standalone token — preceded by start-of-string or
whitespace, followed by end-of-string or one of the boundary characters. -/
def StandaloneToken (tok text : List Char) : Prop :=
  ∃ pre post, text = pre ++ tok ++ post ∧
    (pre = [] ∨ ∃ pre0 c, pre = pre0 ++ [c] ∧ jsWhitespace c = true) ∧
    (post = [] ∨ ∃ c post0, post = c :: post0 ∧ boundaryAfterChar c = true)

/-- Plain substring occurrence, declaratively: `tok` occurs somewhere in `s`. -/
def OccursIn (tok s : List Char) : Prop :=
  ∃ pre post, s = pre ++ tok ++ post

/-- Executable substring search: does `tok` occur in `s`? -/
def occursB (tok : List Char) : List Char → Bool
  | [] => (stripPfx tok []).isSome
  | c :: rest => (stripPfx tok (c :: rest)).isSome || occursB tok rest

/-- The fourteen characters escaped by `escapeRegExp` in `actor.ts`
(the character class `[.*+?^${}()|[\]\\]`): exactly the characters that are
not plain literal atoms in a JavaScript regular expression. -/
def regexMetaChar (c : Char) : Bool :=
  c ∈ ['.', '*', '+', '?', '^', '$', '\x7b', '\x7d', '(', ')', '|', '[', ']', '\\']

/-- `escapeRegExp` from `actor.ts`: `string.replace(/[.*+?^${}()|[\]\\]/g, "\\$&")` —
each metacharacter is replaced by a backslash followed by itself. -/
def escapeRegExp (s : List Char) : List Char :=
  s.flatMap fun c => if regexMetaChar c then ['\\', c] else [c]

/-- Parse a regex pattern that consists solely of literal atoms into the
character sequence it denotes: an escaped metacharacter denotes itself, an
unescaped non-metacharacter denotes itself, and any other construct makes the
pattern non-literal (`none`).  This captures the ECMAScript semantics of such
atoms, under which a purely literal pattern matches exactly the occurrences of
its denoted string. -/
def denoteLiteralPattern : List Char → Option (List Char)
  | [] => some []
  | c :: rest =>
    if c = '\\' then
      match rest with
      | [] => none
      | d :: rest2 =>
        if regexMetaChar d then (denoteLiteralPattern rest2).map (d :: ·) else none
    else if regexMetaChar c then none
    else (denoteLiteralPattern rest).map (c :: ·)

/-- Modelled `RegExp.test` for purely literal patterns: a pattern denoting a
literal string matches a text exactly when that string occurs as a substring.
Returns `none` when the pattern is not purely literal (outside the model). -/
def regexTestLiteral (pattern text : List Char) : Option Bool :=
  (denoteLiteralPattern pattern).map fun lit => occursB lit text

/-- The two AI providers recognised by the action (`actor.ts`). -/
inductive AIProvider where
  | claude
  | augment
deriving DecidableEq, Repr

/-- `detectAIProvider` from `actor.ts`: test `@augment` first (priority),
then `@claude`, each with the word-boundary regex; otherwise no provider. -/
def detectAIProvider (text : List Char) : Option AIProvider :=
  if mentionMatch "@augment".toList text then some AIProvider.augment
  else if mentionMatch "@claude".toList text then some AIProvider.claude
  else none

/-- The configuration inputs consumed by `checkContainsTrigger`
(`context.inputs` in `actor.ts`).  The empty list plays the role of the empty
string (JavaScript falsiness of `""` coincides with absence). -/
structure Inputs where
  assigneeTrigger : List Char
  triggerPhrase : List Char
  directPrompt : List Char
deriving DecidableEq, Repr

/-- Modelled from the spec: the event-classification helpers
(`isIssuesEvent`, `isIssuesAssignedEvent`, `isPullRequestEvent`,
`isPullRequestReviewEvent`, `isIssueCommentEvent`,
`isPullRequestReviewCommentEvent`) live in `../context`, which is not part of
the provided sources.  Events are therefore modelled as the disjoint payload
shapes the spec describes (issue, pull request, review, comments), each
carrying the text fields `checkContainsTrigger` reads; `other` stands for any
event matched by none of the helpers. -/
inductive GHEvent where
  | issues (action : List Char) (assigneeLogin : Option (List Char))
      (body : List Char) (title : List Char)
  | pullRequest (body : List Char) (title : List Char)
  | pullRequestReview (action : List Char) (reviewBody : List Char)
  | issueComment (commentBody : List Char)
  | pullRequestReviewComment (commentBody : List Char)
  | other
deriving DecidableEq, Repr

/-- The slice of `ParsedGitHubContext` read by `checkContainsTrigger`. -/
structure ParsedGitHubContext where
  event : GHEvent
  inputs : Inputs
deriving DecidableEq, Repr

/-- `TriggerResult`: `{ containsTrigger: boolean; aiProvider?: AIProvider }`. -/
structure TriggerResult where
  containsTrigger : Bool
  aiProvider : Option AIProvider
deriving DecidableEq, Repr

/-- `assigneeTrigger.replace(/^@/, "")`: strip one leading `@` if present. -/
def stripLeadingAt : List Char → List Char
  | '@' :: rest => rest
  | s => s

/-- The assignee-trigger branch of `checkContainsTrigger`
(`isIssuesAssignedEvent` guard): fires when the stripped trigger user is
non-empty and equals the assignee's login (`assignee?.login || ""`).
`none` means control falls through to the next branch. -/
def assignedStage (inputs : Inputs) : GHEvent → Option TriggerResult
  | GHEvent.issues action assigneeLogin _ _ =>
    if action = "assigned".toList then
      let triggerUser := stripLeadingAt inputs.assigneeTrigger
      let assigneeUsername := assigneeLogin.getD []
      if triggerUser ≠ [] ∧ assigneeUsername = triggerUser then
        some ⟨true, some AIProvider.claude⟩
      else none
    else none
  | _ => none

/-- The issue-opened branch: provider scan on body then title, then the
fallback trigger-phrase regex on body then title.  The regex
`new RegExp("(^|\\s)" + escapeRegExp(triggerPhrase) + "([\\s.,!?;:]|$)")`
is embedded as `mentionMatch triggerPhrase` — justified by
`denoteLiteralPattern_escapeRegExp`, the escaped phrase is a purely literal
pattern denoting the phrase itself. -/
def issuesOpenedStage (inputs : Inputs) : GHEvent → Option TriggerResult
  | GHEvent.issues action _ body title =>
    if action = "opened".toList then
      match detectAIProvider body with
      | some p => some ⟨true, some p⟩
      | none =>
        match detectAIProvider title with
        | some p => some ⟨true, some p⟩
        | none =>
          if mentionMatch inputs.triggerPhrase body then
            some ⟨true, some AIProvider.claude⟩
          else if mentionMatch inputs.triggerPhrase title then
            some ⟨true, some AIProvider.claude⟩
          else none
    else none
  | _ => none

/-- The pull-request branch: same priority order as the issue branch. -/
def pullRequestStage (inputs : Inputs) : GHEvent → Option TriggerResult
  | GHEvent.pullRequest body title =>
    match detectAIProvider body with
    | some p => some ⟨true, some p⟩
    | none =>
      match detectAIProvider title with
      | some p => some ⟨true, some p⟩
      | none =>
        if mentionMatch inputs.triggerPhrase body then
          some ⟨true, some AIProvider.claude⟩
        else if mentionMatch inputs.triggerPhrase title then
          some ⟨true, some AIProvider.claude⟩
        else none
  | _ => none

/-- The pull-request-review branch (action `submitted` or `edited`). -/
def reviewStage (inputs : Inputs) : GHEvent → Option TriggerResult
  | GHEvent.pullRequestReview action reviewBody =>
    if action = "submitted".toList ∨ action = "edited".toList then
      match detectAIProvider reviewBody with
      | some p => some ⟨true, some p⟩
      | none =>
        if mentionMatch inputs.triggerPhrase reviewBody then
          some ⟨true, some AIProvider.claude⟩
        else none
    else none
  | _ => none

/-- The comment branch (`isIssueCommentEvent` or
`isPullRequestReviewCommentEvent`; both read `payload.comment.body`). -/
def commentStage (inputs : Inputs) : GHEvent → Option TriggerResult
  | GHEvent.issueComment commentBody =>
    match detectAIProvider commentBody with
    | some p => some ⟨true, some p⟩
    | none =>
      if mentionMatch inputs.triggerPhrase commentBody then
        some ⟨true, some AIProvider.claude⟩
      else none
  | GHEvent.pullRequestReviewComment commentBody =>
    match detectAIProvider commentBody with
    | some p => some ⟨true, some p⟩
    | none =>
      if mentionMatch inputs.triggerPhrase commentBody then
        some ⟨true, some AIProvider.claude⟩
      else none
  | _ => none

/-- `checkContainsTrigger` from `actor.ts`: a non-empty direct prompt
triggers immediately with provider `claude`; otherwise the event-specific
branches run in source order, each early-returning when it fires; if none
fires the result is `{ containsTrigger: false }` with no provider. -/
def checkContainsTrigger (ctx : ParsedGitHubContext) : TriggerResult :=
  if ctx.inputs.directPrompt ≠ [] then ⟨true, some AIProvider.claude⟩
  else
    match assignedStage ctx.inputs ctx.event with
    | some r => r
    | none =>
      match issuesOpenedStage ctx.inputs ctx.event with
      | some r => r
      | none =>
        match pullRequestStage ctx.inputs ctx.event with
        | some r => r
        | none =>
          match reviewStage ctx.inputs ctx.event with
          | some r => r
          | none =>
            match commentStage ctx.inputs ctx.event with
            | some r => r
            | none => ⟨false, none⟩

/-- JavaScript `Array.prototype.includes` on string lists: exact,
case-sensitive equality. -/
def includes (xs : List (List Char)) (a : List Char) : Bool :=
  xs.any fun x => x = a

/-- `allowedBotNames.join(', ')`. -/
def joinComma : List (List Char) → List Char
  | [] => []
  | [x] => x
  | x :: xs => x ++ ", ".toList ++ joinComma xs

/-- The error message thrown by `checkAllowedActor` for an unauthorized
actor, concatenated exactly as the source template builds it. -/
def unauthorizedActorMessage (actor actorType : List Char)
    (allowedBotNames : List (List Char)) : List Char :=
  "Workflow initiated by unauthorized actor: ".toList ++ actor ++
    (" (type: ".toList ++ actorType ++
      ("). Only human users and whitelisted bots are allowed.".toList ++
        (if allowedBotNames.length > 0 then
          " Allowed bots: ".toList ++ joinComma allowedBotNames
        else [])))

/-- `checkAllowedActor` from `actor.ts`, with the GitHub user-lookup response
(`userData.type`) passed in as `actorType`: a `User` always passes, a `Bot`
passes when its login is in the (non-empty) allowed list, everything else
throws the unauthorized-actor error. -/
def checkAllowedActor (actor actorType : List Char)
    (allowedBotNames : List (List Char)) : Except (List Char) Unit :=
  if actorType = "User".toList then Except.ok ()
  else if actorType = "Bot".toList ∧
      (allowedBotNames.length > 0 ∧ includes allowedBotNames actor = true) then
    Except.ok ()
  else Except.error (unauthorizedActorMessage actor actorType allowedBotNames)

/-- Outcome of the `repos.getCollaboratorPermissionLevel` API call consumed
by `checkWritePermissions`: either a permission string or a thrown error. -/
inductive PermApiOutcome where
  | ok (permission : List Char)
  | err (message : List Char)
deriving DecidableEq, Repr

/-- `checkWritePermissions` from `actor.ts`.  The first component is the
function's outcome (`Except.error` models a thrown error, re-wrapped by the
`catch` block as `Failed to check permissions for ...`); the second component
records whether the permission API was called. -/
def checkWritePermissions (actor : List Char)
    (allowedBotNames : List (List Char)) (api : PermApiOutcome) :
    Except (List Char) Bool × Bool :=
  if includes allowedBotNames actor then (Except.ok true, false)
  else
    match api with
    | PermApiOutcome.ok permissionLevel =>
      if permissionLevel = "admin".toList ∨ permissionLevel = "write".toList then
        (Except.ok true, true)
      else (Except.ok false, true)
    | PermApiOutcome.err e =>
      (Except.error ("Failed to check permissions for ".toList ++ actor ++
        (": ".toList ++ e)), true)

/-- The raw process environment read by `getCliToolConfig`
(`execute-cli.ts`, provided unnamed).  `none` models an unset variable.
`AI_ENV` is modelled as the already-parsed JSON object (an association
list); JSON parsing itself is outside the embedding. -/
structure RawEnv where
  PROMPT_FILE : Option (List Char)
  ALLOWED_TOOLS : Option (List Char)
  DISALLOWED_TOOLS : Option (List Char)
  TIMEOUT_MINUTES : Option (List Char)
  MAX_TURNS : Option (List Char)
  MODEL : Option (List Char)
  MCP_CONFIG : Option (List Char)
  API_KEY : Option (List Char)
  AI_ENV : Option (List (List Char × List Char))
  USE_BEDROCK : Option (List Char)
  USE_VERTEX : Option (List Char)
deriving DecidableEq, Repr

/-- `CliToolConfig` from the dispatcher: command, optional install command,
argument list and environment overlay (later entries shadow earlier ones,
like a JavaScript object spread). -/
structure CliToolConfig where
  command : List Char
  installCommand : Option (List (List Char))
  args : List (List Char)
  envSetup : List (List Char × List Char)
deriving DecidableEq, Repr

/-- The environment overlay suffix `...(aiEnv ? JSON.parse(aiEnv) : {})`. -/
def aiEnvOverlay (env : RawEnv) : List (List Char × List Char) :=
  env.AI_ENV.getD []

/-- `getCliToolConfig` from the dispatcher: a fixed switch over the closed
set of supported CLI tool identifiers, interpolating the environment-derived
settings (`process.env.X || default`) into each tool's fixed template; an
unrecognized identifier throws
`Unsupported CLI tool: <id>. Supported tools: claude-cli, gemini-cli,
codex-cli, augment-cli`. -/
def getCliToolConfig (env : RawEnv) (cliTool : List Char) :
    Except (List Char) CliToolConfig :=
  let promptFile := env.PROMPT_FILE.getD []
  let allowedTools := env.ALLOWED_TOOLS.getD []
  let disallowedTools := env.DISALLOWED_TOOLS.getD []
  let timeoutMinutes := env.TIMEOUT_MINUTES.getD "30".toList
  let maxTurns := env.MAX_TURNS.getD []
  let model := env.MODEL.getD []
  let mcpConfig := env.MCP_CONFIG.getD []
  let apiKey := env.API_KEY.getD []
  if cliTool = "claude-cli".toList then
    Except.ok
      { command := "npx".toList
        installCommand := some
          ["npm".toList, "install".toList, "-g".toList,
            "@anthropic-ai/claude-code".toList]
        args :=
          ["@anthropic-ai/claude-code".toList,
            "--prompt-file".toList, promptFile,
            "--allowed-tools".toList, allowedTools,
            "--disallowed-tools".toList, disallowedTools,
            "--timeout-minutes".toList, timeoutMinutes] ++
          (if maxTurns ≠ [] then ["--max-turns".toList, maxTurns] else []) ++
          (if model ≠ [] then ["--model".toList, model] else []) ++
          (if mcpConfig ≠ [] then ["--mcp-config".toList, mcpConfig] else []) ++
          (if env.USE_BEDROCK = some "true".toList then ["--use-bedrock".toList]
            else []) ++
          (if env.USE_VERTEX = some "true".toList then ["--use-vertex".toList]
            else [])
        envSetup :=
          [("ANTHROPIC_API_KEY".toList, apiKey),
            ("ANTHROPIC_MODEL".toList, model)] ++ aiEnvOverlay env }
  else if cliTool = "gemini-cli".toList then
    Except.ok
      { command := "npx".toList
        installCommand := some
          ["npm".toList, "install".toList, "-g".toList,
            "@google-ai/generativelanguage".toList]
        args :=
          ["@google-ai/generativelanguage".toList,
            "--input-file".toList, promptFile,
            "--model".toList, (if model ≠ [] then model else "gemini-pro".toList),
            "--max-tokens".toList, "2048".toList,
            "--timeout".toList, timeoutMinutes]
        envSetup :=
          [("GOOGLE_API_KEY".toList, apiKey),
            ("GOOGLE_AI_MODEL".toList, model)] ++ aiEnvOverlay env }
  else if cliTool = "codex-cli".toList then
    Except.ok
      { command := "npx".toList
        installCommand := some
          ["npm".toList, "install".toList, "-g".toList, "@openai/codex".toList]
        args :=
          ["@openai/codex".toList, "exec".toList, "--full-auto".toList,
            "Read and execute: ".toList ++ promptFile]
        envSetup :=
          [("OPENAI_API_KEY".toList, apiKey),
            ("OPENAI_MODEL".toList, model)] ++ aiEnvOverlay env }
  else if cliTool = "augment-cli".toList then
    Except.ok
      { command := "npx".toList
        installCommand := some
          ["npm".toList, "install".toList, "-g".toList, "openai".toList]
        args :=
          ["openai".toList, "api".toList, "completions.create".toList,
            "-m".toList, (if model ≠ [] then model else "gpt-4".toList),
            "--prompt".toList, "$(cat ".toList ++ promptFile ++ ")".toList,
            "--max-tokens".toList, "2048".toList]
        envSetup :=
          [("OPENAI_API_KEY".toList, apiKey),
            ("OPENAI_MODEL".toList, model)] ++ aiEnvOverlay env }
  else
    Except.error ("Unsupported CLI tool: ".toList ++ cliTool ++
      (". Supported tools: ".toList ++
        "claude-cli, gemini-cli, codex-cli, augment-cli".toList))

/-- The closed set of supported CLI tool identifiers. -/
def supportedCliTools : List (List Char) :=
  ["claude-cli".toList, "gemini-cli".toList, "codex-cli".toList,
    "augment-cli".toList]

/-- Result of `spawnSync` as consumed by the dispatcher: `status` is the
exit status, `none` when the process was terminated by a signal
(JavaScript `null`). -/
structure SpawnSyncResult where
  status : Option Int
deriving DecidableEq, Repr

/-- Return value of `executeCliTool`. -/
structure ExecOutcome where
  outputFile : List Char
  conclusion : List Char
deriving DecidableEq, Repr

/-- The result-classification part of `executeCliTool` from the dispatcher:
output file is `join(RUNNER_TEMP || "/tmp", "ai-execution-output.json")` and
the conclusion is `result.status === 0 ? "success" : "failure"` (the
synthesised output-file write is filesystem side effect, not modelled). -/
def executeCliTool (outputDir : List Char) (result : SpawnSyncResult) :
    ExecOutcome :=
  { outputFile := outputDir ++ "/ai-execution-output.json".toList
    conclusion :=
      if result.status = some 0 then "success".toList else "failure".toList }

/-! ## Helper lemmas -/

theorem stripPfx_eq_some {tok s r : List Char} :
    stripPfx tok s = some r ↔ s = tok ++ r := by
  induction tok generalizing s with
  | nil => simp [stripPfx]
  | cons t ts ih =>
    cases s with
    | nil => simp [stripPfx]
    | cons c cs =>
      by_cases h : t = c
      · subst h
        simp [stripPfx, ih]
      · simp only [stripPfx, if_neg h, List.cons_append]
        constructor
        · intro h'
          simp at h'
        · intro h'
          injection h' with h1 h2
          exact absurd h1.symm h

theorem tokenHere_iff {tok s : List Char} :
    tokenHere tok s = true ↔
      ∃ post, s = tok ++ post ∧
        (post = [] ∨ ∃ c post0, post = c :: post0 ∧ boundaryAfterChar c = true) := by
  unfold tokenHere
  constructor
  · intro h
    cases hs : stripPfx tok s with
    | none => rw [hs] at h; exact absurd h (by simp)
    | some r =>
      rw [hs] at h
      refine ⟨r, stripPfx_eq_some.mp hs, ?_⟩
      cases r with
      | nil => exact Or.inl rfl
      | cons c r0 => exact Or.inr ⟨c, r0, rfl, h⟩
  · rintro ⟨post, rfl, hb⟩
    have hs : stripPfx tok (tok ++ post) = some post := stripPfx_eq_some.mpr rfl
    rw [hs]
    rcases hb with rfl | ⟨c, post0, rfl, hc⟩
    · rfl
    · exact hc

theorem scanRest_iff {tok s : List Char} :
    scanRest tok s = true ↔
      ∃ pre c rest, s = pre ++ c :: rest ∧ jsWhitespace c = true ∧
        tokenHere tok rest = true := by
  induction s with
  | nil =>
    simp only [scanRest]
    constructor
    · intro h; exact absurd h (by simp)
    · rintro ⟨pre, c, rest, h, -, -⟩
      exact absurd h (by simp)
  | cons a s ih =>
    simp only [scanRest, Bool.or_eq_true, Bool.and_eq_true]
    constructor
    · rintro (⟨hw, ht⟩ | h)
      · exact ⟨[], a, s, rfl, hw, ht⟩
      · obtain ⟨pre, c, rest, rfl, hw, ht⟩ := ih.mp h
        exact ⟨a :: pre, c, rest, rfl, hw, ht⟩
    · rintro ⟨pre, c, rest, heq, hw, ht⟩
      cases pre with
      | nil =>
        simp only [List.nil_append, List.cons.injEq] at heq
        obtain ⟨rfl, rfl⟩ := heq
        exact Or.inl ⟨hw, ht⟩
      | cons p pre0 =>
        simp only [List.cons_append, List.cons.injEq] at heq
        obtain ⟨rfl, heq⟩ := heq
        exact Or.inr (ih.mpr ⟨pre0, c, rest, heq, hw, ht⟩)

/-- The executable scan agrees with the declarative standalone-token
occurrence predicate. -/
theorem mentionMatch_iff_standalone {tok text : List Char} :
    mentionMatch tok text = true ↔ StandaloneToken tok text := by
  unfold mentionMatch StandaloneToken
  simp only [Bool.or_eq_true]
  constructor
  · rintro (h | h)
    · obtain ⟨post, rfl, hb⟩ := tokenHere_iff.mp h
      exact ⟨[], post, rfl, Or.inl rfl, hb⟩
    · obtain ⟨pre, c, rest, rfl, hw, ht⟩ := scanRest_iff.mp h
      obtain ⟨post, rfl, hb⟩ := tokenHere_iff.mp ht
      exact ⟨pre ++ [c], post, by simp, Or.inr ⟨pre, c, rfl, hw⟩, hb⟩
  · rintro ⟨pre, post, rfl, hpre, hb⟩
    rcases hpre with rfl | ⟨pre0, c, rfl, hw⟩
    · exact Or.inl (tokenHere_iff.mpr ⟨post, rfl, hb⟩)
    · refine Or.inr (scanRest_iff.mpr ⟨pre0, c, tok ++ post, by simp, hw,
        tokenHere_iff.mpr ⟨post, rfl, hb⟩⟩)

theorem stripPfx_isSome_iff {tok s : List Char} :
    (stripPfx tok s).isSome = true ↔ ∃ r, s = tok ++ r := by
  constructor
  · intro h
    cases hs : stripPfx tok s with
    | none => rw [hs] at h; exact absurd h (by simp)
    | some r => exact ⟨r, stripPfx_eq_some.mp hs⟩
  · rintro ⟨r, rfl⟩
    rw [stripPfx_eq_some.mpr rfl]
    rfl

theorem occursB_iff {tok s : List Char} :
    occursB tok s = true ↔ OccursIn tok s := by
  induction s with
  | nil =>
    simp only [occursB, OccursIn, stripPfx_isSome_iff]
    constructor
    · rintro ⟨r, hr⟩
      exact ⟨[], r, hr⟩
    · rintro ⟨pre, post, h⟩
      have hpre : pre = [] := by
        cases pre with
        | nil => rfl
        | cons p ps => exact absurd h (by simp)
      subst hpre
      exact ⟨post, by simpa using h⟩
  | cons c rest ih =>
    simp only [occursB, Bool.or_eq_true, stripPfx_isSome_iff, ih, OccursIn]
    constructor
    · rintro (⟨r, hr⟩ | ⟨pre, post, hr⟩)
      · exact ⟨[], r, by simpa using hr⟩
      · exact ⟨c :: pre, post, by simp [hr]⟩
    · rintro ⟨pre, post, hr⟩
      cases pre with
      | nil => exact Or.inl ⟨post, by simpa using hr⟩
      | cons p ps =>
        simp only [List.cons_append, List.cons.injEq] at hr
        exact Or.inr ⟨ps, post, hr.2⟩

theorem escapeRegExp_cons (c : Char) (cs : List Char) :
    escapeRegExp (c :: cs) =
      (if regexMetaChar c then ['\\', c] else [c]) ++ escapeRegExp cs := by
  simp [escapeRegExp]

theorem denoteLiteralPattern_escapeRegExp (s : List Char) :
    denoteLiteralPattern (escapeRegExp s) = some s := by
  induction s with
  | nil => rfl
  | cons c cs ih =>
    rw [escapeRegExp_cons]
    by_cases h : regexMetaChar c = true
    · rw [if_pos h]
      show denoteLiteralPattern ('\\' :: c :: escapeRegExp cs) = some (c :: cs)
      rw [denoteLiteralPattern.eq_def]
      simp [h, ih]
    · rw [if_neg h]
      have hc : ¬ c = '\\' := by
        intro hc
        subst hc
        exact h (by decide)
      show denoteLiteralPattern (c :: escapeRegExp cs) = some (c :: cs)
      rw [denoteLiteralPattern.eq_def]
      simp [hc, h, ih]

theorem includes_iff_mem {xs : List (List Char)} {a : List Char} :
    includes xs a = true ↔ a ∈ xs := by
  simp only [includes, List.any_eq_true, decide_eq_true_eq]
  constructor
  · rintro ⟨x, hx, rfl⟩
    exact hx
  · intro h
    exact ⟨a, h, rfl⟩

theorem assignedStage_invariant {inputs : Inputs} {e : GHEvent}
    {r : TriggerResult} (h : assignedStage inputs e = some r) :
    r.aiProvider.isSome = r.containsTrigger := by
  cases e <;> simp only [assignedStage] at h <;>
    repeat' (first | split at h | split_ifs at h)
  all_goals
    first
      | (injection h with h
         subst h
         rfl)
      | exact Option.noConfusion h

theorem issuesOpenedStage_invariant {inputs : Inputs} {e : GHEvent}
    {r : TriggerResult} (h : issuesOpenedStage inputs e = some r) :
    r.aiProvider.isSome = r.containsTrigger := by
  cases e <;> simp only [issuesOpenedStage] at h <;>
    repeat' (first | split at h | split_ifs at h)
  all_goals
    first
      | (injection h with h
         subst h
         rfl)
      | exact Option.noConfusion h

theorem pullRequestStage_invariant {inputs : Inputs} {e : GHEvent}
    {r : TriggerResult} (h : pullRequestStage inputs e = some r) :
    r.aiProvider.isSome = r.containsTrigger := by
  cases e <;> simp only [pullRequestStage] at h <;>
    repeat' (first | split at h | split_ifs at h)
  all_goals
    first
      | (injection h with h
         subst h
         rfl)
      | exact Option.noConfusion h

theorem reviewStage_invariant {inputs : Inputs} {e : GHEvent}
    {r : TriggerResult} (h : reviewStage inputs e = some r) :
    r.aiProvider.isSome = r.containsTrigger := by
  cases e <;> simp only [reviewStage] at h <;>
    repeat' (first | split at h | split_ifs at h)
  all_goals
    first
      | (injection h with h
         subst h
         rfl)
      | exact Option.noConfusion h

theorem commentStage_invariant {inputs : Inputs} {e : GHEvent}
    {r : TriggerResult} (h : commentStage inputs e = some r) :
    r.aiProvider.isSome = r.containsTrigger := by
  cases e <;> simp only [commentStage] at h <;>
    repeat' (first | split at h | split_ifs at h)
  all_goals
    first
      | (injection h with h
         subst h
         rfl)
      | exact Option.noConfusion h

/-! ## Claim theorems -/

/-- C1 (counterexample): the claim as stated fails — the text
`"@augment @claude"` contains `@claude` as a standalone token, yet
`detectAIProvider` does not return `"claude"` for it (the `@augment` check
runs first). -/
theorem detectAIProvider_claude_unconditional_cex :
    StandaloneToken "@claude".toList "@augment @claude".toList ∧
    detectAIProvider "@augment @claude".toList ≠ some AIProvider.claude := by
  constructor
  · exact mentionMatch_iff_standalone.mp (by decide)
  · decide

/-- C1 (amended): `detectAIProvider` returns `"augment"` whenever `@augment`
occurs as a standalone token; returns `"claude"` whenever `@claude` occurs as
a standalone token and `@augment` does not; and returns no match whenever
neither token occurs standalone — in particular for every text in which the
tokens occur only embedded in larger words.  The boundary rule (standalone =
preceded by start or whitespace, followed by end or space/`.`/`,`/`!`/`?`/`;`/`:`)
has no exceptions. -/
theorem detectAIProvider_standalone_spec (text : List Char) :
    (StandaloneToken "@augment".toList text →
      detectAIProvider text = some AIProvider.augment) ∧
    (¬ StandaloneToken "@augment".toList text →
      StandaloneToken "@claude".toList text →
      detectAIProvider text = some AIProvider.claude) ∧
    (¬ StandaloneToken "@augment".toList text →
      ¬ StandaloneToken "@claude".toList text →
      detectAIProvider text = none) := by
  unfold detectAIProvider
  refine ⟨?_, ?_, ?_⟩
  · intro h
    rw [if_pos (mentionMatch_iff_standalone.mpr h)]
  · intro hna hc
    rw [if_neg (fun hm => hna (mentionMatch_iff_standalone.mp hm)),
      if_pos (mentionMatch_iff_standalone.mpr hc)]
  · intro hna hnc
    rw [if_neg (fun hm => hna (mentionMatch_iff_standalone.mp hm)),
      if_neg (fun hm => hnc (mentionMatch_iff_standalone.mp hm))]

/-- C1 (witness): concrete instances of the amended claim — a standalone
`@claude` with no `@augment` matches, and embedded occurrences
(`"claudette"`, `"email@claude.com"`) do not match. -/
theorem detectAIProvider_standalone_spec_witness :
    detectAIProvider "@claude, can you help?".toList = some AIProvider.claude ∧
    detectAIProvider "claudette".toList = none ∧
    detectAIProvider "email@claude.com".toList = none := by
  refine ⟨?_, ?_, ?_⟩
  · exact (detectAIProvider_standalone_spec "@claude, can you help?".toList).2.1
      (fun h => absurd (mentionMatch_iff_standalone.mpr h) (by decide))
      (mentionMatch_iff_standalone.mp (by decide))
  · exact (detectAIProvider_standalone_spec "claudette".toList).2.2
      (fun h => absurd (mentionMatch_iff_standalone.mpr h) (by decide))
      (fun h => absurd (mentionMatch_iff_standalone.mpr h) (by decide))
  · exact (detectAIProvider_standalone_spec "email@claude.com".toList).2.2
      (fun h => absurd (mentionMatch_iff_standalone.mpr h) (by decide))
      (fun h => absurd (mentionMatch_iff_standalone.mpr h) (by decide))

/-- C2: whenever both `@claude` and `@augment` appear in the same text (as
standalone tokens, the only way `detectAIProvider` registers an appearance),
the result is `"augment"` — the `@augment` priority is unconditional,
regardless of position. -/
theorem detectAIProvider_augment_priority (text : List Char)
    (haug : StandaloneToken "@augment".toList text)
    (hcl : StandaloneToken "@claude".toList text) :
    detectAIProvider text = some AIProvider.augment := by
  unfold detectAIProvider
  rw [if_pos (mentionMatch_iff_standalone.mpr haug)]

/-- C2 (witness): the spec scenario `"@claude and @augment please help"`,
where `@claude` appears first, still yields `"augment"`. -/
theorem detectAIProvider_augment_priority_witness :
    detectAIProvider "@claude and @augment please help".toList =
      some AIProvider.augment :=
  detectAIProvider_augment_priority "@claude and @augment please help".toList
    (mentionMatch_iff_standalone.mp (by decide))
    (mentionMatch_iff_standalone.mp (by decide))

/-- C6: a regular expression built from `escapeRegExp s` is a purely literal
pattern denoting `s` itself, so testing it against a text `t` (modelled
ECMAScript semantics of literal-atom patterns) succeeds exactly when `s`
occurs literally as a substring of `t`. -/
theorem escapeRegExp_literal_roundtrip (s t : List Char) :
    regexTestLiteral (escapeRegExp s) t = some (occursB s t) ∧
    (regexTestLiteral (escapeRegExp s) t = some true ↔ OccursIn s t) := by
  have hd : regexTestLiteral (escapeRegExp s) t = some (occursB s t) := by
    unfold regexTestLiteral
    rw [denoteLiteralPattern_escapeRegExp]
    rfl
  refine ⟨hd, ?_⟩
  rw [hd]
  constructor
  · intro h
    injection h with h
    exact occursB_iff.mp h
  · intro h
    rw [occursB_iff.mpr h]

/-- C9: invariant of `checkContainsTrigger` — the result carries a provider
exactly when it is triggered: `aiProvider` is `some _` iff `containsTrigger`
is `true`. -/
theorem checkContainsTrigger_provider_invariant (ctx : ParsedGitHubContext) :
    ((checkContainsTrigger ctx).aiProvider).isSome =
      (checkContainsTrigger ctx).containsTrigger := by
  unfold checkContainsTrigger
  split
  · rfl
  · split
    · next h => exact assignedStage_invariant h
    · split
      · next h => exact issuesOpenedStage_invariant h
      · split
        · next h => exact pullRequestStage_invariant h
        · split
          · next h => exact reviewStage_invariant h
          · split
            · next h => exact commentStage_invariant h
            · rfl

/-- C3: `checkAllowedActor` succeeds unconditionally for type `"User"`;
succeeds for type `"Bot"` when the login is in `allowedBotNames` (exact,
case-sensitive comparison); and in every other case — including
`"Organization"` even when listed — fails with a message containing the
actor, its type, and (when the allowed-bot list is non-empty) that list. -/
theorem checkAllowedActor_spec (actor actorType : List Char)
    (names : List (List Char)) :
    (actorType = "User".toList →
      checkAllowedActor actor actorType names = Except.ok ()) ∧
    (actorType = "Bot".toList → actor ∈ names →
      checkAllowedActor actor actorType names = Except.ok ()) ∧
    (actorType ≠ "User".toList → (actorType = "Bot".toList → actor ∉ names) →
      ∃ msg, checkAllowedActor actor actorType names = Except.error msg ∧
        OccursIn actor msg ∧ OccursIn actorType msg ∧
        (names ≠ [] → OccursIn (joinComma names) msg)) := by
  refine ⟨?_, ?_, ?_⟩
  · intro h
    unfold checkAllowedActor
    rw [if_pos h]
  · intro hb hm
    unfold checkAllowedActor
    rw [if_neg (by rw [hb]; decide),
      if_pos ⟨hb, List.length_pos.mpr (List.ne_nil_of_mem hm),
        includes_iff_mem.mpr hm⟩]
  · intro hnu hnb
    unfold checkAllowedActor
    rw [if_neg hnu, if_neg (fun hc => hnb hc.1 (includes_iff_mem.mp hc.2.2))]
    refine ⟨unauthorizedActorMessage actor actorType names, rfl, ?_, ?_, ?_⟩
    · unfold unauthorizedActorMessage
      exact ⟨_, _, rfl⟩
    · unfold unauthorizedActorMessage
      refine ⟨"Workflow initiated by unauthorized actor: ".toList ++ actor ++
        " (type: ".toList,
        "). Only human users and whitelisted bots are allowed.".toList ++
          (if names.length > 0 then
            " Allowed bots: ".toList ++ joinComma names
          else []), ?_⟩
      simp only [List.append_assoc]
    · intro hne
      unfold unauthorizedActorMessage
      rw [if_pos (List.length_pos.mpr hne)]
      refine ⟨"Workflow initiated by unauthorized actor: ".toList ++ actor ++
        " (type: ".toList ++ actorType ++
        "). Only human users and whitelisted bots are allowed.".toList ++
        " Allowed bots: ".toList, [], ?_⟩
      simp only [List.append_assoc, List.append_nil]

/-- C3 (witness): the spec scenario — bot actor `"malicious-bot"` with
`allowedBotNames = ["dependabot[bot]"]` fails with a message containing
the actor, the type `"Bot"` and the allowed list. -/
theorem checkAllowedActor_spec_witness :
    ∃ msg, checkAllowedActor "malicious-bot".toList "Bot".toList
        ["dependabot[bot]".toList] = Except.error msg ∧
      OccursIn "malicious-bot".toList msg ∧ OccursIn "Bot".toList msg ∧
      (["dependabot[bot]".toList] ≠ ([] : List (List Char)) →
        OccursIn (joinComma ["dependabot[bot]".toList]) msg) :=
  (checkAllowedActor_spec "malicious-bot".toList "Bot".toList
      ["dependabot[bot]".toList]).2.2
    (by decide) (fun _ => by decide)

/-- C4: `checkWritePermissions` returns `true` without calling the
permission API when the actor is an allowed bot; otherwise it calls the API
and returns `true` exactly for permission `"admin"` or `"write"`, `false`
for every other permission string, and propagates an API failure as a raised
error (never `false`). -/
theorem checkWritePermissions_spec (actor : List Char)
    (names : List (List Char)) (api : PermApiOutcome) :
    (actor ∈ names →
      checkWritePermissions actor names api = (Except.ok true, false)) ∧
    (actor ∉ names → ∀ perm, api = PermApiOutcome.ok perm →
      checkWritePermissions actor names api =
        ((if perm = "admin".toList ∨ perm = "write".toList then Except.ok true
          else Except.ok false), true)) ∧
    (actor ∉ names → ∀ e, api = PermApiOutcome.err e →
      ∃ msg, checkWritePermissions actor names api = (Except.error msg, true) ∧
        OccursIn actor msg) := by
  refine ⟨?_, ?_, ?_⟩
  · intro hm
    unfold checkWritePermissions
    rw [if_pos (includes_iff_mem.mpr hm)]
  · intro hm perm hapi
    subst hapi
    simp only [checkWritePermissions]
    rw [if_neg (fun hc => hm (includes_iff_mem.mp hc))]
    split_ifs with h <;> rfl
  · intro hm e hapi
    subst hapi
    simp only [checkWritePermissions]
    rw [if_neg (fun hc => hm (includes_iff_mem.mp hc))]
    exact ⟨_, rfl, _, _, rfl⟩

/-- C4 (witness): an actor not in the allowed list with permission `"read"`
gets `false`, with the API having been called. -/
theorem checkWritePermissions_spec_witness :
    checkWritePermissions "alice".toList []
        (PermApiOutcome.ok "read".toList) = (Except.ok false, true) := by
  have h := (checkWritePermissions_spec "alice".toList []
      (PermApiOutcome.ok "read".toList)).2.1
    (by decide) "read".toList rfl
  rwa [if_neg (by decide)] at h

/-- C5: a non-empty direct prompt short-circuits every other check —
`checkContainsTrigger` returns `{containsTrigger: true, aiProvider: "claude"}`
regardless of event type, assignee, trigger phrase or any text field. -/
theorem checkContainsTrigger_directPrompt (ctx : ParsedGitHubContext)
    (h : ctx.inputs.directPrompt ≠ []) :
    checkContainsTrigger ctx = ⟨true, some AIProvider.claude⟩ := by
  unfold checkContainsTrigger
  rw [if_pos h]

/-- C5 (witness): direct prompt `"help me with this"` triggers with
provider `claude` even on a comment event mentioning `@augment`. -/
theorem checkContainsTrigger_directPrompt_witness :
    checkContainsTrigger
      ⟨GHEvent.issueComment "@augment please".toList,
        ⟨[], "@claude".toList, "help me with this".toList⟩⟩ =
      ⟨true, some AIProvider.claude⟩ :=
  checkContainsTrigger_directPrompt
    ⟨GHEvent.issueComment "@augment please".toList,
      ⟨[], "@claude".toList, "help me with this".toList⟩⟩
    (by decide)

/-- C10: with an empty configured trigger phrase, the fallback regex
`(^|\s)<phrase>([\s.,!?;:]|$)` matches the empty text, so an issues-opened
event with no direct prompt, an empty body and a title with no provider
mention still triggers with provider `claude` — an empty trigger phrase does
not disable triggering. -/
theorem checkContainsTrigger_emptyTriggerPhrase
    (assigneeTrigger title : List Char)
    (h : detectAIProvider title = none) :
    mentionMatch [] [] = true ∧
    checkContainsTrigger
      ⟨GHEvent.issues "opened".toList none [] title,
        ⟨assigneeTrigger, [], []⟩⟩ = ⟨true, some AIProvider.claude⟩ := by
  refine ⟨rfl, ?_⟩
  unfold checkContainsTrigger
  rw [if_neg (by simp)]
  have ha : assignedStage ⟨assigneeTrigger, [], []⟩
      (GHEvent.issues "opened".toList none [] title) = none := by
    simp [assignedStage]
  have hb : issuesOpenedStage ⟨assigneeTrigger, [], []⟩
      (GHEvent.issues "opened".toList none [] title) =
      some ⟨true, some AIProvider.claude⟩ := by
    simp only [issuesOpenedStage]
    have hd0 : detectAIProvider ([] : List Char) = none := by decide
    rw [hd0, h]
    rfl
  rw [ha, hb]

/-- C10 (witness): title `"hello"` contains no provider mention, and the
issues-opened event with empty body and empty trigger phrase triggers. -/
theorem checkContainsTrigger_emptyTriggerPhrase_witness :
    mentionMatch [] [] = true ∧
    checkContainsTrigger
      ⟨GHEvent.issues "opened".toList none [] "hello".toList,
        ⟨[], [], []⟩⟩ = ⟨true, some AIProvider.claude⟩ :=
  checkContainsTrigger_emptyTriggerPhrase [] "hello".toList (by decide)

/-- C7: `getCliToolConfig` succeeds for every identifier in the closed
supported set `{claude-cli, gemini-cli, codex-cli, augment-cli}` and fails
for every identifier outside it with an error message containing the
unrecognized identifier and the enumeration of the supported set. -/
theorem getCliToolConfig_spec (env : RawEnv) (cliTool : List Char) :
    (cliTool ∈ supportedCliTools →
      ∃ cfg, getCliToolConfig env cliTool = Except.ok cfg) ∧
    (cliTool ∉ supportedCliTools →
      ∃ msg, getCliToolConfig env cliTool = Except.error msg ∧
        OccursIn cliTool msg ∧
        OccursIn "claude-cli, gemini-cli, codex-cli, augment-cli".toList msg) := by
  constructor
  · intro hmem
    simp only [supportedCliTools, List.mem_cons, List.not_mem_nil,
      or_false] at hmem
    rcases hmem with rfl | rfl | rfl | rfl
    · exact ⟨_, rfl⟩
    · exact ⟨_, rfl⟩
    · exact ⟨_, rfl⟩
    · exact ⟨_, rfl⟩
  · intro hmem
    simp only [supportedCliTools, List.mem_cons, List.not_mem_nil,
      or_false, not_or] at hmem
    obtain ⟨h1, h2, h3, h4⟩ := hmem
    simp only [getCliToolConfig]
    rw [if_neg h1, if_neg h2, if_neg h3, if_neg h4]
    refine ⟨_, rfl, ⟨_, _, rfl⟩, ?_⟩
    refine ⟨"Unsupported CLI tool: ".toList ++ cliTool ++
      ". Supported tools: ".toList, [], ?_⟩
    simp only [List.append_assoc, List.append_nil]

/-- C7 (witness): the unsupported identifier `"foo-cli"` fails, with the
message naming it and enumerating the supported set. -/
theorem getCliToolConfig_spec_witness :
    ∃ msg, getCliToolConfig
        ⟨none, none, none, none, none, none, none, none, none, none, none⟩
        "foo-cli".toList = Except.error msg ∧
      OccursIn "foo-cli".toList msg ∧
      OccursIn "claude-cli, gemini-cli, codex-cli, augment-cli".toList msg :=
  (getCliToolConfig_spec
      ⟨none, none, none, none, none, none, none, none, none, none, none⟩
      "foo-cli".toList).2 (by decide)

/-- C8: the dispatcher's conclusion is `"success"` exactly when the
subprocess exit status is `0`, and `"failure"` for every other status —
including termination by signal, where `spawnSync` reports `null`
(modelled as `none`). -/
theorem executeCliTool_conclusion_spec (outputDir : List Char)
    (result : SpawnSyncResult) :
    ((executeCliTool outputDir result).conclusion = "success".toList ↔
      result.status = some 0) ∧
    ((executeCliTool outputDir result).conclusion = "failure".toList ↔
      result.status ≠ some 0) := by
  unfold executeCliTool
  by_cases h : result.status = some 0
  · rw [if_pos h]
    refine ⟨⟨fun _ => h, fun _ => rfl⟩, ⟨fun hc => ?_, fun hn => absurd h hn⟩⟩
    have hss : "success".toList = "failure".toList := hc
    exact absurd hss (by decide)
  · rw [if_neg h]
    refine ⟨⟨fun hc => ?_, fun h0 => absurd h0 h⟩, ⟨fun _ => h, fun _ => rfl⟩⟩
    have hss : "failure".toList = "success".toList := hc
    exact absurd hss (by decide)

end ClaudeCodeAction
